import Mathlib

/-!
Shallow embedding of parts of the rally-openstack repository:

* `rally/plugins/common/exporters/monasca/exporter.py` — the nested
  atomic-action flattening pass (`MonascaExporter._process_atomic_actions`,
  `MonascaExporter._make_action_report`);
* `rally/plugins/common/verification/testr.py` — `_expand_skip_list`;
* the context-plugin lifecycle manager exercised by
  `tests/unit/task/test_context.py` (the implementation `rally.task.context`
  is not part of the sources here, so those operations are modelled from the
  specification and the unit tests).

Python integers and timestamps are modelled as `Int`, Python dicts as
association lists, raised exceptions as `Except` errors.
-/

namespace RallyVerify

/-! ## Data model of the atomic-action flattening pass -/

/-- One node of an iteration's atomic-action tree, as read by
`_process_atomic_actions`: fields `name`, `started_at`, `finished_at`,
`failed` (read with `action.get("failed", False)`, so the absent-key default
is folded into the Bool) and `children`. -/
structure Action where
  name : String
  started_at : Int
  finished_at : Int
  failed : Bool
  children : List Action

/-- The iteration record consumed by `_process_atomic_actions`: `id`,
`atomic_actions`, `error`, `timestamp`, `duration`, `idle_duration`.
The opaque error payload is modelled as `Option String`; `none` stands for a
falsy payload (`None` or empty), `some s` for a truthy one. -/
structure Iteration where
  id : String
  atomic_actions : List Action
  error : Option String
  timestamp : Int
  duration : Int
  idle_duration : Int

/-- The denormalized workload metadata read by `_make_action_report`. -/
structure Workload where
  deployment_uuid : String
  deployment_name : String
  scenario_cfg : String
  contexts : String
  runner_name : String
  runner_cfg : String

/-- The `act_id` dict built in `_process_atomic_actions`
(keys `itr_id`, `action_name`, `num`). -/
structure ActId where
  itr_id : String
  action_name : String
  num : Nat
deriving DecidableEq

/-- The dict returned by `_make_action_report`. -/
structure ActionReport where
  deployment_uuid : String
  deployment_name : String
  action_name : String
  workload_uuid : String
  scenario_cfg : String
  contexts : String
  runner_name : String
  runner_cfg : String
  success : Bool
  duration : Int
  started_at : String
  finished_at : String
  parent : Option ActId
  error : Option String
deriving DecidableEq

/-- Python truthiness of the modelled error payload:
`none` is falsy, `some s` is truthy. -/
def errTruthyB (e : Option String) : Bool := e.isSome

/-- Source `MonascaExporter._make_action_report` (exporter.py lines 136-158):
builds the flat record; `parent = parent[0] if parent else None`;
`success = not bool(error)`. -/
def make_action_report (name : String) (workload_id : String) (workload : Workload)
    (duration : Int) (started_at finished_at : String)
    (parent : Option (ActId × ActionReport)) (error : Option String) : ActionReport :=
  { deployment_uuid := workload.deployment_uuid
    deployment_name := workload.deployment_name
    action_name := name
    workload_uuid := workload_id
    scenario_cfg := workload.scenario_cfg
    contexts := workload.contexts
    runner_name := workload.runner_name
    runner_cfg := workload.runner_cfg
    success := !(errTruthyB error)
    duration := duration
    started_at := started_at
    finished_at := finished_at
    parent := parent.map Prod.fst
    error := error }

/-- One emitted metric document. -/
structure Metric where
  doc_id : ActId
  report : ActionReport
deriving DecidableEq

/-- Modelled from the spec: `self._create_action_metric(action_report, doc_id)`
is called at exporter.py lines 210 and 253 but the method is not defined in the
sources; per the spec the pipeline emits one uniquely-identified Flattened
Action Record per visited node, so the metric is modelled as the record paired
with its identifier. -/
def create_action_metric (report : ActionReport) (doc_id : ActId) : Metric :=
  ⟨doc_id, report⟩

/-- A value stored in the `_cache` dict: either an occurrence counter
(an int) or, under the key `"metrics"`, the list of emitted metrics.
Both kinds of value live in the same Python dict. -/
inductive CacheVal where
  | num : Nat → CacheVal
  | metrics : List Metric → CacheVal
deriving DecidableEq

/-- The `_cache` dict of `_process_atomic_actions`, as an association list. -/
abbrev Cache := List (String × CacheVal)

/-- Exceptions the embedded code can raise.  `fuelOut` is an artefact of the
fuel-based encoding of the recursion; it is unreachable from the entry points
below because the depth guard bounds the recursion depth by 3 while the entry
points supply fuel 4. -/
inductive PyErr where
  | keyError : String → PyErr
  | attributeError : String → PyErr
  | typeError : PyErr
  | fuelOut : PyErr
deriving DecidableEq

/-- Python dict read `cache[k]` (as an option). -/
def cacheLookup : Cache → String → Option CacheVal
  | [], _ => none
  | (k, v) :: rest, key => if k = key then some v else cacheLookup rest key

/-- Python dict write `cache[k] = v`: replaces the value in place when the key
is present, appends otherwise. -/
def cacheSet : Cache → String → CacheVal → Cache
  | [], key, v => [(key, v)]
  | (k, w) :: rest, key, v =>
    if k = key then (key, v) :: rest else (k, w) :: cacheSet rest key v

/-- Python falsiness of a cache value (`0` and `[]` are falsy). -/
def cacheValFalsy : CacheVal → Bool
  | .num n => n == 0
  | .metrics l => l.isEmpty

/-- Source lines 187-192: `cache.setdefault(action["name"], 0)`, read the
counter into `act_id["num"]`, then `cache[action["name"]] += 1`.  When the
name collides with the `"metrics"` key the `+=` hits the stored list and
raises `TypeError`. -/
def counterTake (cache : Cache) (name : String) : Except PyErr (Nat × Cache) :=
  match cacheLookup cache name with
  | none => .ok (0, cacheSet cache name (.num 1))
  | some (.num n) => .ok (n, cacheSet cache name (.num (n + 1)))
  | some (.metrics _) => .error .typeError

/-- Source: `atomic_actions[-1].get("failed", False)` (line 229). -/
def lastFailed (actions : List Action) : Bool :=
  (actions.getLast?.map (·.failed)).getD false

/-- The body of the `for` loop of `_process_atomic_actions`
(source lines 186-220) for a single action: take the occurrence counter,
build `act_id` and the action report, append the metric to
`cache["metrics"]` (`AttributeError` if that slot no longer holds a list),
then recurse into the children (the recursion is abstracted as `recurse`,
which receives the children, the new parent pair, and the updated cache). -/
def processStep (fmt : Int → String) (itr : Iteration) (workload : Workload)
    (workload_id : String)
    (recurse : List Action → Option (ActId × ActionReport) → Option Cache → Except PyErr Cache)
    (parent : Option (ActId × ActionReport)) (cache : Cache) (action : Action) :
    Except PyErr Cache :=
  match counterTake cache action.name with
  | .error e => .error e
  | .ok (n, c1) =>
    let act_id : ActId := ⟨itr.id, action.name, n⟩
    let started_at := fmt action.started_at
    let finished_at := fmt action.finished_at
    let report := make_action_report action.name workload_id workload
      (action.finished_at - action.started_at) started_at finished_at parent
      (if action.failed then itr.error else none)
    let metric := create_action_metric report act_id
    match cacheLookup c1 "metrics" with
    | some (.metrics l) =>
      recurse action.children (some (act_id, report))
        (some (cacheSet c1 "metrics" (.metrics (l ++ [metric]))))
    | some (.num _) => .error (.attributeError "append")
    | none => .error (.keyError "metrics")

/-- Source `MonascaExporter._process_atomic_actions` (exporter.py lines
160-255), with the action list already resolved (the `atomic_actions is None`
default is applied by the wrapper below) and the recursion driven by an
explicit fuel argument (the timestamp formatter
`datetime.utcfromtimestamp`/`strftime` is abstracted as `fmt`):

* lines 177-178: `if _depth >= 3: return _cache["metrics"]` — `TypeError`
  when `_cache` is `None`, `KeyError` when it has no `"metrics"` key,
  otherwise the accumulated cache is returned unchanged;
* line 179: `cache = _cache or ...` — `None` and the empty dict are
  replaced by a fresh empty dict;
* line 180: `cache["metrics"] = cache["metrics"] or ...` — the read on the
  right-hand side raises `KeyError` when the key is absent (in particular on
  every call with the default `_cache=None`); a falsy stored value is
  replaced by an empty list;
* lines 186-220: the per-action loop (`processStep`), threading the shared
  cache and short-circuiting on a raised exception;
* lines 222-254: when `itr["error"]` is truthy, `_parent` is `None` and
  either there are no atomic actions or the last top-level action is not
  marked failed, a synthetic `no-name-action` record is built and
  `cache.metrics.append(metric)` is executed — which raises
  `AttributeError` since a dict has no attribute `metrics`;
* line 255: `return cache["metrics"]` — modelled by returning the final
  cache; the entry points below extract the `"metrics"` slot. -/
def process_atomic_actions_fuel (fmt : Int → String) (itr : Iteration)
    (workload : Workload) (workload_id : String) :
    Nat → List Action → Option (ActId × ActionReport) → Nat → Option Cache →
    Except PyErr Cache
  | 0, _, _, _, _ => .error .fuelOut
  | fuel + 1, atomic_actions, parent, depth, cacheOpt =>
    if depth ≥ 3 then
      match cacheOpt with
      | none => .error .typeError
      | some c =>
        match cacheLookup c "metrics" with
        | some _ => .ok c
        | none => .error (.keyError "metrics")
    else
      let cache0 : Cache :=
        match cacheOpt with
        | none => []
        | some c => if c.isEmpty then [] else c
      match cacheLookup cache0 "metrics" with
      | none => .error (.keyError "metrics")
      | some v =>
        let cache1 := cacheSet cache0 "metrics"
          (if cacheValFalsy v then .metrics [] else v)
        match atomic_actions.foldlM
            (processStep fmt itr workload workload_id
              (fun acts par cOpt =>
                process_atomic_actions_fuel fmt itr workload workload_id fuel
                  acts par (depth + 1) cOpt)
              parent)
            cache1 with
        | .error e => .error e
        | .ok cache2 =>
          if errTruthyB itr.error &&
              ((parent.isNone && atomic_actions.isEmpty) ||
               (parent.isNone && !atomic_actions.isEmpty &&
                !lastFailed atomic_actions)) then
            .error (.attributeError "metrics")
          else .ok cache2

/-- `_process_atomic_actions` with the source signature.  The
`atomic_actions is None` default (source lines 182-183) is applied here; in
the source it sits after the cache initialization, but neither the depth
guard nor the cache initialization reads the action list, so hoisting it is
behavior-preserving.  Fuel 4 is exact for every argument: each recursive call
increments `_depth` and the guard stops at depth 3, so no call chain consumes
more than 4 frames. -/
def process_atomic_actions (fmt : Int → String) (itr : Iteration)
    (workload : Workload) (workload_id : String)
    (atomic_actions : Option (List Action))
    (parent : Option (ActId × ActionReport)) (depth : Nat)
    (cacheOpt : Option Cache) : Except PyErr Cache :=
  process_atomic_actions_fuel fmt itr workload workload_id 4
    (atomic_actions.getD itr.atomic_actions) parent depth cacheOpt

/-- The call with all inner parameters at their defaults
(`atomic_actions=None, _parent=None, _depth=0, _cache=None`), returning the
Python return value `cache["metrics"]`.  After a successful pass the
`"metrics"` slot always holds a list; the two fallback arms are unreachable
artefacts of the extraction. -/
def process_atomic_actions_default (fmt : Int → String) (itr : Iteration)
    (workload : Workload) (workload_id : String) : Except PyErr (List Metric) :=
  match process_atomic_actions fmt itr workload workload_id none none 0 none with
  | .error e => .error e
  | .ok c =>
    match cacheLookup c "metrics" with
    | some (.metrics l) => .ok l
    | some (.num _) => .error .typeError
    | none => .error (.keyError "metrics")

/-- The cache value `dict(metrics=[])`, the smallest `_cache` argument that
lets the pass get past the line-180 read. -/
def metricsInit : Cache := [("metrics", CacheVal.metrics [])]

/-- `_process_atomic_actions` invoked with an explicitly initialized cache
`_cache = dict(metrics=[])` and the other inner parameters at their
defaults. -/
def process_with_cache (fmt : Int → String) (itr : Iteration)
    (workload : Workload) (workload_id : String) : Except PyErr Cache :=
  process_atomic_actions fmt itr workload workload_id none none 0 (some metricsInit)

/-- Extract the emitted metrics from a finished pass. -/
def okMetrics : Except PyErr Cache → Option (List Metric)
  | .ok c =>
    match cacheLookup c "metrics" with
    | some (.metrics l) => some l
    | _ => none
  | .error _ => none

/-- The emitted metrics of a pass, defaulting to the empty list. -/
def recordsOf (r : Except PyErr Cache) : List Metric := (okMetrics r).getD []

/-- Number of emitted records that carry an error payload. -/
def errCount (r : Except PyErr Cache) : Nat :=
  (recordsOf r).countP (fun m => m.report.error.isSome)

/-- Action names of the emitted records, in emission order. -/
def namesOf (r : Except PyErr Cache) : List String :=
  (recordsOf r).map (fun m => m.doc_id.action_name)

/-- A concrete timestamp formatter standing in for
`strftime(ISO8601) ∘ utcfromtimestamp`. -/
def fmtDec : Int → String := fun t => toString t

/-- A concrete workload metadata record used in concrete evaluations. -/
def w0 : Workload :=
  ⟨"dep-uuid", "dep-name", "scenario-cfg", "ctxs", "runner", "runner-cfg"⟩

/-! ## Concrete iterations used to settle the exporter claims -/

/-- The C1 scenario iteration: a single successful atomic action, no error. -/
def itrC1 : Iteration := ⟨"itr-c1", [⟨"a", 0, 1, false, []⟩], none, 0, 0, 0⟩

/-- The C2 scenario iteration: no atomic actions, a truthy error,
`timestamp=100`, `duration=5`, `idle_duration=0`. -/
def itrC2 : Iteration := ⟨"itr-c2", [], some "boom", 100, 5, 0⟩

/-- An iteration with two failed top-level actions and a truthy error. -/
def itrC3 : Iteration :=
  ⟨"itr-c3", [⟨"f1", 0, 1, true, []⟩, ⟨"f2", 1, 2, true, []⟩], some "bad", 0, 2, 0⟩

/-- A second iteration with two failed top-level actions and a truthy error. -/
def itrC3b : Iteration :=
  ⟨"itr-c3b", [⟨"g1", 0, 1, true, []⟩, ⟨"g2", 1, 3, true, []⟩], some "worse", 0, 3, 0⟩

/-- An iteration with two parent actions that each contain a child named
`"x"`. -/
def itrC4 : Iteration :=
  ⟨"itr-c4",
   [⟨"p1", 0, 1, false, [⟨"x", 0, 1, false, []⟩]⟩,
    ⟨"p2", 1, 2, false, [⟨"x", 1, 2, false, []⟩]⟩], none, 0, 0, 0⟩

/-- A nesting chain `a > b > c > d`: node `d` sits at depth 3
(the root list being depth 0). -/
def itrC5 : Iteration :=
  ⟨"itr-c5",
   [⟨"a", 0, 1, false,
     [⟨"b", 0, 1, false,
       [⟨"c", 0, 1, false,
         [⟨"d", 0, 1, false, []⟩]⟩]⟩]⟩], none, 0, 0, 0⟩

/-- A second nesting chain `a2 > b2 > c2 > d2` of depth 4. -/
def itrC5b : Iteration :=
  ⟨"itr-c5b",
   [⟨"a2", 0, 1, false,
     [⟨"b2", 0, 1, false,
       [⟨"c2", 0, 1, false,
         [⟨"d2", 0, 1, false, []⟩]⟩]⟩]⟩], none, 0, 0, 0⟩

/-! ## The occurrence-counter bookkeeping (claim C4) -/

/-- Number of records in `l` whose action name is `n`. -/
def countName (l : List Metric) (n : String) : Nat :=
  (l.filter (fun m => m.doc_id.action_name == n)).length

/-- Checks that, continuing after the already-emitted prefix `pre`, every
record's `num` equals the number of records with the same action name emitted
before it (counting from the start of the whole pass). -/
def indexedOkFrom (pre : List Metric) : List Metric → Bool
  | [] => true
  | m :: rest =>
    (m.doc_id.num == countName pre m.doc_id.action_name) &&
      indexedOkFrom (pre ++ [m]) rest

/-- Every record's occurrence index equals the number of earlier records of
the pass bearing the same action name — the counter is global to the pass,
not scoped to the record's parent. -/
def indexedOkB (l : List Metric) : Bool := indexedOkFrom [] l

/-- The counter entry for name `n` agrees with the number of records named
`n` emitted so far. -/
def ctrMatches (c : Cache) (l : List Metric) (n : String) : Prop :=
  match cacheLookup c n with
  | none => countName l n = 0
  | some (.num k) => k = countName l n
  | some (.metrics _) => False

/-- The cache invariant of the flattening pass: the `"metrics"` slot holds
the emitted records, their occurrence indices count same-named predecessors
across the whole pass, and every counter entry matches that count. -/
def cacheGood (c : Cache) : Prop :=
  ∃ l, cacheLookup c "metrics" = some (.metrics l) ∧ indexedOkB l = true ∧
    ∀ n, n ≠ "metrics" → ctrMatches c l n

/-! ## Context lifecycle manager

The implementation (`rally.task.context`) is not among the sources; only its
unit tests (`tests/unit/task/test_context.py`) are.  The operations below are
therefore modelled from the specification (sections 4.2 and 4.3) and the
behavior pinned down by those tests. -/

/-- A Python configuration value: mapping, list, tuple, int, string or
`None`. -/
inductive ConfigVal where
  | vmap : List (String × ConfigVal) → ConfigVal
  | vlist : List ConfigVal → ConfigVal
  | vtuple : List ConfigVal → ConfigVal
  | vint : Int → ConfigVal
  | vstr : String → ConfigVal
  | vnone : ConfigVal

/-- Python dict read for configuration mappings. -/
def assocLookup : List (String × ConfigVal) → String → Option ConfigVal
  | [], _ => none
  | (k, v) :: rest, key => if k = key then some v else assocLookup rest key

/-- Modelled from the spec: the default mapping `D` updated with the override
mapping `O` — keys of `O` take precedence, the remaining keys of `D` are
kept. -/
def dictUpdate (d o : List (String × ConfigVal)) : List (String × ConfigVal) :=
  d.filter (fun p => (assocLookup o p.1).isNone) ++ o

/-- Modelled from the spec: the default-configuration merge of a context
plugin — a mapping override is merged over the default mapping with the
override's keys taking precedence; a sequence override is normalized to an
immutable ordered form (tuple); any other override is stored verbatim. -/
def mergeConfig (d : List (String × ConfigVal)) : ConfigVal → ConfigVal
  | .vmap o => .vmap (dictUpdate d o)
  | .vlist l => .vtuple l
  | v => v

/-- Modelled from the spec: on construction a context plugin extracts its own
raw value at the selector matching its name from the run object's `config`
mapping (an absent selector acts as an empty mapping) and stores the merged
result. -/
def contextInitConfig (defCfg : List (String × ConfigVal))
    (runCfg : List (String × ConfigVal)) (name : String) : ConfigVal :=
  mergeConfig defCfg ((assocLookup runCfg name).getD (.vmap []))

/-- Modelled from the spec: a registered context plugin — name, platform,
declared execution order, plus whether its (otherwise opaque) cleanup body
raises when invoked. -/
structure CtxPlugin where
  name : String
  platform : String
  order : Nat
  cleanupRaises : Bool
deriving DecidableEq

/-- The qualified plugin identity `name@platform` used in log messages. -/
def qualifiedName (p : CtxPlugin) : String := p.name ++ "@" ++ p.platform

/-- Observable events of a context-manager run. -/
inductive Event where
  | setupCalled : String → Event
  | cleanupCalled : String → Event
  | logException : String → Event
deriving DecidableEq

/-- The error raised when a selector resolves to no registered plugin. -/
inductive RallyError where
  | pluginNotFound : RallyError
deriving DecidableEq

/-- Split a character list at the first `@` (Python `split("@", 1)`). -/
def splitSel : List Char → List Char × Option (List Char)
  | [] => ([], none)
  | ch :: rest =>
    if ch = '@' then ([], some rest)
    else
      let r := splitSel rest
      (ch :: r.1, r.2)

/-- Modelled from the spec: a selector is `"name"` or `"name@platform"`. -/
def parseSelector (s : String) : String × Option String :=
  let r := splitSel s.data
  (String.mk r.1, r.2.map String.mk)

/-- Modelled from the spec: plugin lookup for one selector — candidates must
match the name, and the platform when one is given (a selector without a
platform matches any platform, as in `Context.get_all(name=..., platform=None,
allow_hidden=True)`); the first registered candidate is chosen, no candidate
means the plugin is not found. -/
def resolveSelector (registry : List CtxPlugin) (sel : String) :
    Option CtxPlugin :=
  let r := parseSelector sel
  (registry.filter (fun p =>
    p.name == r.1 &&
      (match r.2 with
       | none => true
       | some q => p.platform == q))).head?

/-- Insert a plugin behind every already-placed plugin of smaller or equal
order (stable insertion). -/
def insertByOrder (p : CtxPlugin) : List CtxPlugin → List CtxPlugin
  | [] => [p]
  | q :: rest =>
    if q.order ≤ p.order then q :: insertByOrder p rest else p :: q :: rest

/-- Stable ascending sort by declared execution order. -/
def sortByOrder (l : List CtxPlugin) : List CtxPlugin :=
  l.foldl (fun acc p => insertByOrder p acc) []

/-- Modelled from the spec: resolve every selector key of the run
configuration in order; the first unresolvable selector raises
`PluginNotFound` and aborts the whole resolution. -/
def resolveAll (registry : List CtxPlugin) :
    List (String × ConfigVal) → Except RallyError (List CtxPlugin)
  | [] => .ok []
  | kv :: rest =>
    match resolveSelector registry kv.1 with
    | none => .error RallyError.pluginNotFound
    | some p =>
      match resolveAll registry rest with
      | .error e => .error e
      | .ok ps => .ok (p :: ps)

/-- Modelled from the spec: `ContextManager._get_sorted_context_lst` — every
selector key of the run configuration is resolved through the registry
(`PluginNotFound` aborts the whole resolution) and the resolved instances are
sorted ascending by execution order. -/
def getSortedContextLst (registry : List CtxPlugin)
    (config : List (String × ConfigVal)) :
    Except RallyError (List CtxPlugin) :=
  match resolveAll registry config with
  | .error e => .error e
  | .ok lst => .ok (sortByOrder lst)

/-- The setup invocation sequence over the sorted list: `setup()` is invoked
on each plugin in ascending order. -/
def setupInvocations (lst : List CtxPlugin) : List String :=
  lst.map qualifiedName

/-- Modelled from the spec: `ContextManager.setup` resolves and sorts the
context instances, then invokes `setup()` on each strictly in ascending
order; a resolution failure aborts before any `setup()` runs.  The result is
the observable event trace together with the error, if any. -/
def setupRun (registry : List CtxPlugin) (config : List (String × ConfigVal)) :
    List Event × Option RallyError :=
  match getSortedContextLst registry config with
  | .error e => ([], some e)
  | .ok lst => (lst.map (fun p => Event.setupCalled (qualifiedName p)), none)

/-- Modelled from the spec: the cleanup sweep over an already-reversed plugin
list — each plugin's `cleanup()` is invoked in turn; an exception raised by
one of them is caught, logged as `Context name@platform.cleanup() failed.`
and swallowed, and the sweep continues with the remaining plugins. -/
def cleanupSweep : List CtxPlugin → List Event
  | [] => []
  | p :: rest =>
    Event.cleanupCalled (qualifiedName p) ::
      ((if p.cleanupRaises then
          [Event.logException
            ("Context " ++ qualifiedName p ++ ".cleanup() failed.")]
        else []) ++ cleanupSweep rest)

/-- Modelled from the spec: `ContextManager.cleanup` runs the cleanup sweep
over the resolved plugins in exactly the reverse of the setup order. -/
def cleanupRun (lst : List CtxPlugin) : List Event :=
  cleanupSweep lst.reverse

/-- The cleanup invocation sequence of a run (log entries filtered out). -/
def cleanupInvocations (lst : List CtxPlugin) : List String :=
  (cleanupRun lst).filterMap (fun e =>
    match e with
    | .cleanupCalled q => some q
    | _ => none)

/-- A plugin whose cleanup raises, as in `test_cleanup_exception`. -/
def pA : CtxPlugin := ⟨"a", "foo", 1, true⟩

/-- A plugin whose cleanup succeeds, as in `test_cleanup`. -/
def pB : CtxPlugin := ⟨"b", "foo", 2, false⟩

/-- A registry holding `a@foo` and `b@foo`. -/
def registryW : List CtxPlugin := [pA, pB]

/-- A run configuration selecting `a@foo` and `b@foo`. -/
def configW : List (String × ConfigVal) :=
  [("a@foo", ConfigVal.vnone), ("b@foo", ConfigVal.vnone)]

/-- A plugin unrelated to the selector `foo@bar`. -/
def pOther : CtxPlugin := ⟨"other", "bar", 0, false⟩

/-! ## `_expand_skip_list` from testr.py -/

/-- The Python `re` module is an external collaborator: `compile` returns
`none` when `re.compile` raises `re.error`, and otherwise the compiled
pattern's `search` as a predicate on test names. -/
structure RegexEngine where
  compile : String → Option (String → Bool)

/-- Python dict write `result[k] = v` for the skip-list mapping. -/
def skInsert : List (String × String) → String → String → List (String × String)
  | [], k, v => [(k, v)]
  | (k2, w) :: rest, k, v =>
    if k2 = k then (k, v) :: rest else (k2, w) :: skInsert rest k v

/-- Source `_expand_skip_list` (testr.py lines 35-57), over the abstracted
regex engine: an empty or absent `regexps` mapping gives the empty result;
otherwise each pattern that compiles marks every `load_list` test it matches
(via `search`) with its reason, and a pattern that raises `re.error` is
treated as a literal test id and inserted itself. -/
def expand_skip_list (eng : RegexEngine) (load_list : List String)
    (regexps : Option (List (String × String))) : List (String × String) :=
  match regexps with
  | none => []
  | some rs =>
    if rs.isEmpty then []
    else
      rs.foldl (fun result rp =>
        match eng.compile rp.1 with
        | some srch =>
          load_list.foldl (fun res t =>
            if srch t then skInsert res t rp.2 else res) result
        | none => skInsert result rp.1 rp.2) []

/-- A record of the skip-list result is justified when it is either a loaded
test matched by some compiling pattern and mapped to that pattern's reason,
or a non-compiling pattern mapped to its own reason. -/
def skipJustified (eng : RegexEngine) (load_list : List String)
    (rs : List (String × String)) (p : String × String) : Prop :=
  (p.1 ∈ load_list ∧ ∃ r srch, (r, p.2) ∈ rs ∧
    eng.compile r = some srch ∧ srch p.1 = true) ∨
  ((p.1, p.2) ∈ rs ∧ eng.compile p.1 = none)

/-- A concrete regex engine: the pattern `"re-bad"` fails to compile, every
other pattern searches by exact equality. -/
def eng0 : RegexEngine :=
  ⟨fun r => if r = "re-bad" then none else some (fun t => t == r)⟩

/-- A concrete load list. -/
def load0 : List String := ["testA", "testB"]

/-- A concrete skip mapping: one compiling pattern, one failing pattern. -/
def rs0 : List (String × String) := [("testA", "r1"), ("re-bad", "r2")]

/-! ## Claims C1, C2, C3, C5 about the flattening pass -/

/-- C1: the claim says that for the iteration
`atomic_actions = [dict(name="a", started_at=0, finished_at=1, failed=False,
children=[])]` with `error=None`, `_process_atomic_actions` called with its
default inner parameters (`_cache=None`) returns exactly one flattened record
with `success=true` and `duration=1`.  The code instead raises
`KeyError("metrics")` at line 180 (`cache["metrics"] = cache["metrics"] or []`
on a fresh empty dict), on this and every other default call.  The second and
third conjuncts show the claimed output is exactly what the pass produces once
the cache is explicitly initialized, supporting that the claim captures the
intent and line 180 is a slip. -/
theorem monasca_c1_default_call_raises_keyerror :
    process_atomic_actions_default fmtDec itrC1 w0 "wl-1"
        = .error (.keyError "metrics") ∧
    (recordsOf (process_with_cache fmtDec itrC1 w0 "wl-1")).length = 1 ∧
    (recordsOf (process_with_cache fmtDec itrC1 w0 "wl-1")).all
        (fun m => m.report.success && (m.report.duration == 1)) = true :=
  ⟨rfl, by decide, by decide⟩

/-- C2: the claim says that for an iteration with no atomic actions,
a truthy error and `timestamp+duration+idle_duration = 105`, the pass returns
exactly one synthetic `no-name-action` record.  The default call raises
`KeyError("metrics")` at line 180; and even when the cache is explicitly
initialized so that the pass reaches the synthetic-record branch, line 254
(`cache.metrics.append(metric)`) raises `AttributeError`, because a dict has
no attribute `metrics`.  The synthetic record is never returned. -/
theorem monasca_c2_synthetic_record_crashes :
    process_atomic_actions_default fmtDec itrC2 w0 "wl-2"
        = .error (.keyError "metrics") ∧
    process_with_cache fmtDec itrC2 w0 "wl-2"
        = .error (.attributeError "metrics") :=
  ⟨rfl, rfl⟩

/-- C3 counterexample: the claim says exactly one record of the flattened
output carries the iteration-level error.  For the concrete iteration
`itrC3` (error truthy, two top-level actions with `failed=True`) a pass run
with an initialized cache attaches the error to two records, and the default
call raises `KeyError` and produces no record at all. -/
theorem monasca_c3_counterexample :
    errCount (process_with_cache fmtDec itrC3 w0 "wl-3") = 2 ∧
    ¬ errCount (process_with_cache fmtDec itrC3 w0 "wl-3") = 1 ∧
    process_atomic_actions_default fmtDec itrC3 w0 "wl-3"
        = .error (.keyError "metrics") :=
  ⟨by decide, by decide, rfl⟩

/-- C3 amended: the iteration-level error is never attached to exactly one
record.  (i) Every call of `_process_atomic_actions` with its default inner
parameters fails with `KeyError("metrics")` at line 180, so the error is
dropped; (ii) with an explicitly initialized cache the error is attached to
every node whose `failed` flag is true — two failed nodes yield two
error-carrying records; (iii) the synthetic `no-name-action` branch (no
atomic actions, truthy error) always fails with `AttributeError` at line 254
before the synthetic record is stored. -/
theorem monasca_c3_amended :
    (∀ (fmt : Int → String) (itr : Iteration) (wl : Workload) (wid : String),
      process_atomic_actions_default fmt itr wl wid
        = .error (.keyError "metrics")) ∧
    errCount (process_with_cache fmtDec itrC3b w0 "wl-3b") = 2 ∧
    (∀ (fmt : Int → String) (id e : String) (ts d idl : Int)
        (wl : Workload) (wid : String),
      process_with_cache fmt ⟨id, [], some e, ts, d, idl⟩ wl wid
        = .error (.attributeError "metrics")) :=
  ⟨fun _ _ _ _ => rfl, by decide, fun _ _ _ _ _ _ _ _ => rfl⟩

/-- C5 counterexample: the claim says nodes at the cutoff depth 3 (root =
depth 0) are still flattened into their own records.  For the concrete chain
`a > b > c > d` the pass (run with an initialized cache) emits records for
`a`, `b` and `c` only; the depth-3 node `d` produces no record. -/
theorem monasca_c5_counterexample :
    namesOf (process_with_cache fmtDec itrC5 w0 "wl-5") = ["a", "b", "c"] ∧
    ¬ "d" ∈ namesOf (process_with_cache fmtDec itrC5 w0 "wl-5") :=
  ⟨by decide, by decide⟩

/-- C5 amended: recursion stops before flattening once depth reaches 3: a
call at depth ≥ 3 whose cache carries a `"metrics"` entry returns the
accumulated cache unchanged, so the actions handed to it — the depth-3
children of a depth-2 node — are dropped without being flattened; nodes at
depths 0-2 are each flattened (for the depth-4 chain `a2 > b2 > c2 > d2`
exactly `a2`, `b2`, `c2` are emitted). -/
theorem monasca_c5_amended :
    (∀ (fmt : Int → String) (itr : Iteration) (wl : Workload) (wid : String)
        (fuel : Nat) (actions : List Action)
        (parent : Option (ActId × ActionReport)) (depth : Nat)
        (c : Cache) (v : CacheVal),
      depth ≥ 3 → cacheLookup c "metrics" = some v →
      process_atomic_actions_fuel fmt itr wl wid (fuel + 1) actions parent
          depth (some c) = .ok c) ∧
    namesOf (process_with_cache fmtDec itrC5b w0 "wl-5b") = ["a2", "b2", "c2"] := by
  constructor
  · intro fmt itr wl wid fuel actions parent depth c v hdepth hlook
    simp only [process_atomic_actions_fuel, if_pos hdepth, hlook]
  · decide

/-- Witness for the amended C5 theorem: at depth 3 with the initialized
cache, the pass over the chain's action list returns the cache unchanged. -/
theorem monasca_c5_amended_witness :
    3 ≥ 3 ∧ cacheLookup metricsInit "metrics" = some (CacheVal.metrics []) ∧
    process_atomic_actions_fuel fmtDec itrC5b w0 "wl-5b" 1
        itrC5b.atomic_actions none 3 (some metricsInit) = .ok metricsInit :=
  ⟨by decide, rfl,
   monasca_c5_amended.1 fmtDec itrC5b w0 "wl-5b" 0 itrC5b.atomic_actions none 3
     metricsInit (CacheVal.metrics []) (by decide) rfl⟩

/-! ## Cache and counter lemmas -/

/-- Looking a key up after a dict write. -/
theorem cacheLookup_cacheSet (c : Cache) (k k2 : String) (v : CacheVal) :
    cacheLookup (cacheSet c k v) k2
      = if k = k2 then some v else cacheLookup c k2 := by
  induction c with
  | nil => simp [cacheSet, cacheLookup]
  | cons hd tl ih =>
    obtain ⟨k3, w⟩ := hd
    by_cases h3 : k3 = k <;> by_cases h2 : k = k2 <;>
      simp_all [cacheSet, cacheLookup]

/-- Writing back the value a key already holds leaves the dict unchanged. -/
theorem cacheSet_self (c : Cache) (k : String) (v : CacheVal)
    (h : cacheLookup c k = some v) : cacheSet c k v = c := by
  induction c with
  | nil => simp [cacheLookup] at h
  | cons hd tl ih =>
    obtain ⟨k3, w⟩ := hd
    by_cases h3 : k3 = k
    · subst h3
      have hw : w = v := by simpa [cacheLookup] using h
      subst hw
      simp [cacheSet]
    · simp only [cacheLookup, if_neg h3] at h
      simp [cacheSet, h3, ih h]

/-- Occurrence counts distribute over append. -/
theorem countName_append (l1 l2 : List Metric) (n : String) :
    countName (l1 ++ l2) n = countName l1 n + countName l2 n := by
  simp [countName, List.filter_append]

/-- Occurrence count of a singleton. -/
theorem countName_single (m : Metric) (n : String) :
    countName [m] n = if m.doc_id.action_name = n then 1 else 0 := by
  by_cases h : m.doc_id.action_name = n <;> simp [countName, h]

/-- Appending one record to a well-indexed list: the new record must carry
the occurrence count of its name over everything emitted before it. -/
theorem indexedOkFrom_append (l pre : List Metric) (m : Metric) :
    indexedOkFrom pre (l ++ [m])
      = (indexedOkFrom pre l &&
          (m.doc_id.num == countName (pre ++ l) m.doc_id.action_name)) := by
  induction l generalizing pre with
  | nil => simp [indexedOkFrom]
  | cons a l ih =>
    simp [indexedOkFrom, ih (pre ++ [a]), List.append_assoc, Bool.and_assoc]

/-- Taking the counter for `name` and appending the corresponding record
preserves the cache invariant. -/
theorem cacheGood_push (c : Cache) (l : List Metric) (name : String) (k : Nat)
    (rep : ActionReport) (iid : String)
    (hml : cacheLookup c "metrics" = some (.metrics l))
    (hidx : indexedOkB l = true)
    (hctr : ∀ n, n ≠ "metrics" → ctrMatches c l n)
    (hne : name ≠ "metrics")
    (hk : k = countName l name) :
    cacheGood (cacheSet (cacheSet c name (.num (k + 1))) "metrics"
      (.metrics (l ++ [⟨⟨iid, name, k⟩, rep⟩]))) := by
  refine ⟨l ++ [⟨⟨iid, name, k⟩, rep⟩], ?_, ?_, ?_⟩
  · rw [cacheLookup_cacheSet]; simp
  · unfold indexedOkB
    rw [indexedOkFrom_append]
    simp only [List.nil_append]
    unfold indexedOkB at hidx
    simp [hidx, hk]
  · intro n2 hn2
    unfold ctrMatches
    rw [cacheLookup_cacheSet, if_neg (Ne.symm hn2), cacheLookup_cacheSet]
    by_cases he : name = n2
    · subst he
      rw [if_pos rfl, countName_append, countName_single]
      simp [hk]
    · rw [if_neg he]
      have hc := hctr n2 hn2
      unfold ctrMatches at hc
      have hcount : countName (l ++ [(⟨⟨iid, name, k⟩, rep⟩ : Metric)]) n2
          = countName l n2 := by
        rw [countName_append, countName_single]
        simp [he]
      rw [hcount]
      exact hc

/-- The flattening pass preserves the cache invariant: started from a good
cache, every successful call of `_process_atomic_actions` (at any fuel,
depth and parent) finishes with a good cache. -/
theorem processGood (fmt : Int → String) (itr : Iteration) (wl : Workload)
    (wid : String) :
    ∀ (fuel : Nat) (actions : List Action)
      (parent : Option (ActId × ActionReport)) (depth : Nat) (c c' : Cache),
      cacheGood c →
      process_atomic_actions_fuel fmt itr wl wid fuel actions parent depth
          (some c) = .ok c' →
      cacheGood c' := by
  intro fuel
  induction fuel with
  | zero =>
    intro actions parent depth c c' _ h
    simp [process_atomic_actions_fuel] at h
  | succ fuel ih =>
    have hstep : ∀ (parent : Option (ActId × ActionReport)) (depth : Nat)
        (c : Cache) (a : Action) (c' : Cache), cacheGood c →
        processStep fmt itr wl wid
          (fun acts par cOpt =>
            process_atomic_actions_fuel fmt itr wl wid fuel acts par
              (depth + 1) cOpt)
          parent c a = .ok c' → cacheGood c' := by
      intro parent depth c a c' hg hs
      obtain ⟨l, hml, hidx, hctr⟩ := hg
      rcases hct : counterTake c a.name with e | p
      · simp only [processStep, hct] at hs
        exact Except.noConfusion hs
      · obtain ⟨n, c1⟩ := p
        simp only [processStep, hct] at hs
        have hne : a.name ≠ "metrics" := by
          intro he
          rw [counterTake, he, hml] at hct
          cases hct
        have hc1 : n = countName l a.name ∧ c1 = cacheSet c a.name (.num (n + 1)) := by
          rw [counterTake] at hct
          rcases hlk : cacheLookup c a.name with _ | val
          · rw [hlk] at hct
            simp only [Except.ok.injEq, Prod.mk.injEq] at hct
            have hcm := hctr a.name hne
            unfold ctrMatches at hcm
            rw [hlk] at hcm
            exact ⟨hct.1 ▸ hcm.symm, by rw [← hct.2, ← hct.1]⟩
          · cases val with
            | num k =>
              rw [hlk] at hct
              simp only [Except.ok.injEq, Prod.mk.injEq] at hct
              have hcm := hctr a.name hne
              unfold ctrMatches at hcm
              rw [hlk] at hcm
              exact ⟨hct.1 ▸ hcm, by rw [← hct.2, ← hct.1]⟩
            | metrics ml => rw [hlk] at hct; cases hct
        obtain ⟨hn, hc1⟩ := hc1
        have hl1 : cacheLookup c1 "metrics" = some (.metrics l) := by
          rw [hc1, cacheLookup_cacheSet, if_neg hne]
          exact hml
        rw [hl1] at hs
        have hgood2 : cacheGood (cacheSet c1 "metrics"
            (.metrics (l ++ [create_action_metric (make_action_report a.name wid wl
              (a.finished_at - a.started_at) (fmt a.started_at) (fmt a.finished_at)
              parent (if a.failed = true then itr.error else none)) ⟨itr.id, a.name, n⟩]))) := by
          rw [hc1]
          exact cacheGood_push c l a.name n _ itr.id hml hidx hctr hne hn
        exact ih a.children (some (⟨itr.id, a.name, n⟩,
          make_action_report a.name wid wl (a.finished_at - a.started_at)
            (fmt a.started_at) (fmt a.finished_at) parent
            (if a.failed = true then itr.error else none))) (depth + 1) _ c' hgood2 hs
    have hfold : ∀ (actions : List Action) (parent : Option (ActId × ActionReport))
        (depth : Nat) (c c' : Cache), cacheGood c →
        List.foldlM (processStep fmt itr wl wid
            (fun acts par cOpt =>
              process_atomic_actions_fuel fmt itr wl wid fuel acts par
                (depth + 1) cOpt)
            parent) c actions = .ok c' → cacheGood c' := by
      intro actions
      induction actions with
      | nil =>
        intro parent depth c c' hg h
        simp only [List.foldlM_nil, pure, Except.pure, Except.ok.injEq] at h
        exact h ▸ hg
      | cons a as iha =>
        intro parent depth c c' hg h
        rw [List.foldlM_cons] at h
        rcases hs : processStep fmt itr wl wid
            (fun acts par cOpt =>
              process_atomic_actions_fuel fmt itr wl wid fuel acts par
                (depth + 1) cOpt)
            parent c a with e | c1
        · rw [hs] at h
          exact Except.noConfusion
            (show (Except.error e : Except PyErr Cache) = .ok c' from h)
        · rw [hs] at h
          exact iha parent depth c1 c' (hstep parent depth c a c1 hg hs) h
    intro actions parent depth c c' hg hrun
    by_cases hd : depth ≥ 3
    · obtain ⟨l, hml, hidx, hctr⟩ := hg
      simp only [process_atomic_actions_fuel, if_pos hd, hml] at hrun
      injection hrun with h
      exact h ▸ ⟨l, hml, hidx, hctr⟩
    · obtain ⟨l, hml, hidx, hctr⟩ := hg
      have hgood : cacheGood c := ⟨l, hml, hidx, hctr⟩
      have hcne : c.isEmpty = false := by
        cases c with
        | nil => simp [cacheLookup] at hml
        | cons hd tl => rfl
      have hbr : (if cacheValFalsy (.metrics l) then CacheVal.metrics []
          else .metrics l) = .metrics l := by
        cases l <;> simp [cacheValFalsy]
      simp only [process_atomic_actions_fuel, if_neg hd, hcne, Bool.false_eq_true,
        if_false, hml, hbr, cacheSet_self c "metrics" (.metrics l) hml] at hrun
      rcases hf : List.foldlM (processStep fmt itr wl wid
          (fun acts par cOpt =>
            process_atomic_actions_fuel fmt itr wl wid fuel acts par
              (depth + 1) cOpt)
          parent) c actions with e | c2
      · rw [hf] at hrun
        exact Except.noConfusion hrun
      · rw [hf] at hrun
        have hg2 := hfold actions parent depth c c2 hgood hf
        split at hrun
        · exact Except.noConfusion (by assumption : Except.ok c2 = Except.error _)
        · rename_i cache2 heq
          injection heq with hc2
          split at hrun
          · exact Except.noConfusion hrun
          · injection hrun with h
            exact h ▸ hc2 ▸ hg2

/-! ## Claim C4: scope of the occurrence counter -/

/-- C4 counterexample: the claim says the occurrence counter restarts at 0
for each parent, so two same-named actions under different parents should
both get index 0.  In the concrete pass over `itrC4` (two parents `p1`, `p2`,
each with one child named `"x"`), the `"x"` under `p1` gets index 0 but the
`"x"` under `p2` gets index 1: the counter is shared across parents. -/
theorem monasca_c4_counterexample :
    (recordsOf (process_with_cache fmtDec itrC4 w0 "wl-4")).map
        (fun m => (m.doc_id.action_name, m.doc_id.num,
                   m.report.parent.map (fun p => p.action_name)))
      = [("p1", 0, none), ("x", 0, some "p1"),
         ("p2", 0, none), ("x", 1, some "p2")] ∧
    ¬ ((recordsOf (process_with_cache fmtDec itrC4 w0 "wl-4")).map
        (fun m => m.doc_id.num))[3]? = some 0 :=
  ⟨by decide, by decide⟩

/-- C4 amended: the occurrence counter is kept in the single `_cache` dict
threaded through the whole iteration pass and is keyed by action name only:
every flattened record's occurrence index equals the number of earlier
records of the same pass bearing the same action name, regardless of parent
or depth (`indexedOkB`).  Stated for every pass that runs to completion from
the initialized cache. -/
theorem monasca_c4_amended (fmt : Int → String) (itr : Iteration)
    (wl : Workload) (wid : String)
    (h : (okMetrics (process_with_cache fmt itr wl wid)).isSome = true) :
    indexedOkB (recordsOf (process_with_cache fmt itr wl wid)) = true := by
  rcases hr : process_with_cache fmt itr wl wid with e | c
  · rw [hr] at h
    simp [okMetrics] at h
  · have hg0 : cacheGood metricsInit := by
      refine ⟨[], rfl, rfl, ?_⟩
      intro n hn
      unfold ctrMatches
      rw [show cacheLookup metricsInit n = none from by
        simp [metricsInit, cacheLookup, Ne.symm hn]]
      simp [countName]
    have hr' : process_atomic_actions_fuel fmt itr wl wid 4 itr.atomic_actions
        none 0 (some metricsInit) = .ok c := hr
    have hg := processGood fmt itr wl wid 4 itr.atomic_actions none 0
      metricsInit c hg0 hr'
    obtain ⟨l, hml, hidx, _⟩ := hg
    simp [recordsOf, okMetrics, hml, hidx]

/-- Witness for the amended C4 theorem at the concrete two-parent input. -/
theorem monasca_c4_amended_witness :
    (okMetrics (process_with_cache fmtDec itrC4 w0 "wl-4w")).isSome = true ∧
    indexedOkB (recordsOf (process_with_cache fmtDec itrC4 w0 "wl-4w")) = true :=
  ⟨by decide, monasca_c4_amended fmtDec itrC4 w0 "wl-4w" (by decide)⟩

/-! ## Claims C6-C9: the context lifecycle manager -/

/-- The cleanup sweep invokes `cleanup()` on exactly the plugins of the list,
in list order, whatever each cleanup body does. -/
theorem cleanupSweep_invocations (l : List CtxPlugin) :
    (cleanupSweep l).filterMap (fun e =>
      match e with
      | Event.cleanupCalled q => some q
      | _ => none) = l.map qualifiedName := by
  induction l with
  | nil => rfl
  | cons p rest ih =>
    cases hp : p.cleanupRaises <;>
      simp [cleanupSweep, hp, List.filterMap_append, ih]

/-- A raising plugin of the sweep gets its failure logged with its qualified
name. -/
theorem cleanupSweep_log (l : List CtxPlugin) (p : CtxPlugin) (hp : p ∈ l)
    (hr : p.cleanupRaises = true) :
    Event.logException ("Context " ++ qualifiedName p ++ ".cleanup() failed.")
      ∈ cleanupSweep l := by
  induction l with
  | nil => cases hp
  | cons q rest ih =>
    rcases List.mem_cons.mp hp with h | h
    · subst h
      simp [cleanupSweep, hr]
    · cases hq : q.cleanupRaises <;> simp [cleanupSweep, ih h, hq]

/-- C6: for every resolved context list, `ContextManager.cleanup` invokes
`cleanup()` on every plugin in exactly the reverse of the setup order,
whatever the individual cleanup bodies do (the raising behavior is part of
each `CtxPlugin` and universally quantified through the registry). -/
theorem ctx_c6_cleanup_reverse_order (registry : List CtxPlugin)
    (config : List (String × ConfigVal)) (lst : List CtxPlugin)
    (h : getSortedContextLst registry config = .ok lst) :
    cleanupInvocations lst = (setupInvocations lst).reverse := by
  unfold cleanupInvocations cleanupRun setupInvocations
  rw [cleanupSweep_invocations, List.map_reverse]

/-- Witness: the registry of `a@foo` (order 1, cleanup raises) and `b@foo`
(order 2) resolves, and the cleanup order is the reverse of the setup
order. -/
theorem ctx_c6_witness :
    getSortedContextLst registryW configW = .ok [pA, pB] ∧
    cleanupInvocations [pA, pB] = (setupInvocations [pA, pB]).reverse :=
  ⟨rfl, ctx_c6_cleanup_reverse_order registryW configW [pA, pB] rfl⟩

/-- C7: an exception raised inside one plugin's `cleanup()` is caught and
logged with the plugin's qualified name (`Context name@platform.cleanup()
failed.`) and swallowed — the manager's cleanup still invokes `cleanup()` on
every plugin of the list, in full reverse order, so no later cleanup is
prevented and nothing propagates. -/
theorem ctx_c7_cleanup_exception_swallowed (lst : List CtxPlugin)
    (p : CtxPlugin) (hmem : p ∈ lst) (hr : p.cleanupRaises = true) :
    Event.logException ("Context " ++ qualifiedName p ++ ".cleanup() failed.")
        ∈ cleanupRun lst ∧
    cleanupInvocations lst = (setupInvocations lst).reverse := by
  constructor
  · exact cleanupSweep_log lst.reverse p (List.mem_reverse.mpr hmem) hr
  · unfold cleanupInvocations cleanupRun setupInvocations
    rw [cleanupSweep_invocations, List.map_reverse]

/-- Witness: with `a@foo` raising and `b@foo` after it in reverse order, the
failure of `a@foo` is logged and both cleanups still run in reverse order. -/
theorem ctx_c7_witness :
    pA ∈ [pA, pB] ∧ pA.cleanupRaises = true ∧
    (Event.logException ("Context " ++ qualifiedName pA ++ ".cleanup() failed.")
        ∈ cleanupRun [pA, pB] ∧
     cleanupInvocations [pA, pB] = (setupInvocations [pA, pB]).reverse) :=
  ⟨by decide, rfl,
   ctx_c7_cleanup_exception_swallowed [pA, pB] pA (by decide) rfl⟩

/-! ## Claim C8: configuration merge -/

/-- Filtering the default mapping to the keys the override lacks. -/
theorem dictUpdate_cons_mem (k2 : String) (v2 : ConfigVal)
    (tl o : List (String × ConfigVal)) (w : ConfigVal)
    (h : assocLookup o k2 = some w) :
    dictUpdate ((k2, v2) :: tl) o = dictUpdate tl o := by
  simp [dictUpdate, List.filter_cons, h]

/-- The default entry survives when the override lacks its key. -/
theorem dictUpdate_cons_not_mem (k2 : String) (v2 : ConfigVal)
    (tl o : List (String × ConfigVal)) (h : assocLookup o k2 = none) :
    dictUpdate ((k2, v2) :: tl) o = (k2, v2) :: dictUpdate tl o := by
  simp [dictUpdate, List.filter_cons, h]

/-- Lookup in the merged mapping: the override's keys take precedence, other
keys fall back to the default mapping. -/
theorem assocLookup_dictUpdate (d o : List (String × ConfigVal)) (k : String) :
    assocLookup (dictUpdate d o) k =
      (match assocLookup o k with
       | some v => some v
       | none => assocLookup d k) := by
  induction d with
  | nil =>
    cases ho : assocLookup o k <;> simp [dictUpdate, assocLookup, ho]
  | cons hd tl ih =>
    obtain ⟨k2, v2⟩ := hd
    cases ho2 : assocLookup o k2 with
    | some w =>
      rw [dictUpdate_cons_mem k2 v2 tl o w ho2, ih]
      by_cases h2 : k2 = k
      · subst h2
        rw [ho2]
      · cases ho : assocLookup o k <;> simp [assocLookup, h2, ho]
    | none =>
      rw [dictUpdate_cons_not_mem k2 v2 tl o ho2]
      by_cases h2 : k2 = k
      · subst h2
        simp [assocLookup, ho2]
      · cases ho : assocLookup o k <;> simp [assocLookup, h2, ho, ih]

/-- C8: the stored configuration of a context plugin.  When both the default
configuration and the override are mappings, the merged mapping resolves
every key to the override's value when present and to the default's
otherwise; a sequence override is stored as its immutable ordered (tuple)
form preserving element order; a scalar or `None` override is stored
verbatim; and a plugin constructed from a run object holding the override at
its own selector stores exactly that merge. -/
theorem ctx_c8_config_merge (d o : List (String × ConfigVal))
    (lst : List ConfigVal) (n : Int) (s : String) (name : String)
    (rest : List (String × ConfigVal)) :
    (∀ k, assocLookup (dictUpdate d o) k =
      (match assocLookup o k with
       | some v => some v
       | none => assocLookup d k)) ∧
    mergeConfig d (.vmap o) = .vmap (dictUpdate d o) ∧
    mergeConfig d (.vlist lst) = .vtuple lst ∧
    mergeConfig d (.vtuple lst) = .vtuple lst ∧
    mergeConfig d (.vint n) = .vint n ∧
    mergeConfig d (.vstr s) = .vstr s ∧
    mergeConfig d .vnone = .vnone ∧
    contextInitConfig d ((name, .vmap o) :: rest) name
      = mergeConfig d (.vmap o) := by
  refine ⟨fun k => assocLookup_dictUpdate d o k, rfl, rfl, rfl, rfl, rfl, rfl, ?_⟩
  simp [contextInitConfig, assocLookup]

/-! ## Claim C9: unresolvable selector aborts setup -/

/-- If any selector of the configuration fails to resolve, the whole
resolution pass fails with `PluginNotFound`. -/
theorem resolveAll_fails (registry : List CtxPlugin) (sel : String)
    (v : ConfigVal) (hres : resolveSelector registry sel = none) :
    ∀ config : List (String × ConfigVal), (sel, v) ∈ config →
    resolveAll registry config = .error RallyError.pluginNotFound := by
  intro config
  induction config with
  | nil => intro h; cases h
  | cons hd rest ih =>
    intro hmem
    obtain ⟨k2, v2⟩ := hd
    cases hk : resolveSelector registry k2 with
    | none => simp [resolveAll, hk]
    | some p =>
      have hrest : (sel, v) ∈ rest := by
        rcases List.mem_cons.mp hmem with h | h
        · exfalso
          cases h
          rw [hres] at hk
          cases hk
        · exact h
      simp [resolveAll, hk, ih hrest]

/-- C9: when any configured selector names no registered plugin,
`ContextManager.setup` fails with `PluginNotFound` during resolution and no
plugin's `setup()` is invoked (the event trace is empty). -/
theorem ctx_c9_unresolved_selector_aborts (registry : List CtxPlugin)
    (config : List (String × ConfigVal)) (sel : String) (v : ConfigVal)
    (hmem : (sel, v) ∈ config)
    (hres : resolveSelector registry sel = none) :
    setupRun registry config = ([], some RallyError.pluginNotFound) := by
  unfold setupRun getSortedContextLst
  rw [resolveAll_fails registry sel v hres config hmem]

/-- Witness: the selector `foo@bar` against a registry holding only
`other@bar` makes `setup()` fail with `PluginNotFound` and an empty setup
trace. -/
theorem ctx_c9_witness :
    ("foo@bar", ConfigVal.vnone) ∈ [("foo@bar", ConfigVal.vnone)] ∧
    resolveSelector [pOther] "foo@bar" = none ∧
    setupRun [pOther] [("foo@bar", ConfigVal.vnone)]
      = ([], some RallyError.pluginNotFound) :=
  ⟨List.mem_singleton.mpr rfl, rfl,
   ctx_c9_unresolved_selector_aborts [pOther] [("foo@bar", ConfigVal.vnone)]
     "foo@bar" ConfigVal.vnone (List.mem_singleton.mpr rfl) rfl⟩

/-! ## Claim C10: `_expand_skip_list` -/

/-- The written pair is always present after a dict write. -/
theorem skInsert_self_mem (m : List (String × String)) (k v : String) :
    (k, v) ∈ skInsert m k v := by
  induction m with
  | nil => simp [skInsert]
  | cons hd rest ih =>
    obtain ⟨k2, w⟩ := hd
    by_cases h : k2 = k <;> simp [skInsert, h, ih]

/-- Every pair present after a dict write is the written pair or was already
present. -/
theorem mem_skInsert (m : List (String × String)) (k v : String)
    (p : String × String) (h : p ∈ skInsert m k v) : p = (k, v) ∨ p ∈ m := by
  induction m with
  | nil => simpa [skInsert] using h
  | cons hd rest ih =>
    obtain ⟨k2, w⟩ := hd
    by_cases h2 : k2 = k
    · subst h2
      simp only [skInsert, if_pos rfl] at h
      rcases List.mem_cons.mp h with h | h
      · exact Or.inl h
      · exact Or.inr (List.mem_cons_of_mem _ h)
    · simp only [skInsert, if_neg h2] at h
      rcases List.mem_cons.mp h with h | h
      · exact Or.inr (h ▸ List.mem_cons_self _ _)
      · rcases ih h with h | h
        · exact Or.inl h
        · exact Or.inr (List.mem_cons_of_mem _ h)

/-- A pair keyed differently from the written key survives a dict write. -/
theorem mem_skInsert_of_ne (m : List (String × String)) (k v : String)
    (p : String × String) (hne : p.1 ≠ k) (h : p ∈ m) :
    p ∈ skInsert m k v := by
  induction m with
  | nil => cases h
  | cons hd rest ih =>
    obtain ⟨k2, w⟩ := hd
    by_cases h2 : k2 = k
    · subst h2
      simp only [skInsert, if_pos rfl]
      rcases List.mem_cons.mp h with h | h
      · exact absurd (by rw [h]) hne
      · exact List.mem_cons_of_mem _ h
    · simp only [skInsert, if_neg h2]
      rcases List.mem_cons.mp h with h | h
      · exact h ▸ List.mem_cons_self _ _
      · exact List.mem_cons_of_mem _ (ih h)

/-- A key present before a dict write is still present after it. -/
theorem skInsert_key_stable (m : List (String × String)) (k v k0 : String)
    (h : ∃ w, (k0, w) ∈ m) : ∃ w, (k0, w) ∈ skInsert m k v := by
  by_cases he : k0 = k
  · subst he
    exact ⟨v, skInsert_self_mem m k0 v⟩
  · obtain ⟨w, hw⟩ := h
    exact ⟨w, mem_skInsert_of_ne m k v (k0, w) he hw⟩

/-- The inner loop over the load list only adds records for loaded tests
matched by the given compiling pattern. -/
theorem innerFold_justified (eng : RegexEngine) (load_list : List String)
    (rs : List (String × String)) (r reason : String) (srch : String → Bool)
    (hm : (r, reason) ∈ rs) (hc : eng.compile r = some srch) :
    ∀ ts : List String, (∀ t ∈ ts, t ∈ load_list) →
    ∀ res : List (String × String),
      (∀ p ∈ res, skipJustified eng load_list rs p) →
    ∀ p ∈ ts.foldl
        (fun res t => if srch t then skInsert res t reason else res) res,
      skipJustified eng load_list rs p := by
  intro ts
  induction ts with
  | nil => intro _ res hres p hp; exact hres p hp
  | cons t ts ih =>
    intro hts res hres
    simp only [List.foldl_cons]
    cases hst : srch t with
    | false =>
      rw [if_neg (by simp [hst])]
      exact ih (fun t2 ht2 => hts t2 (List.mem_cons_of_mem _ ht2)) res hres
    | true =>
      rw [if_pos (by simp [hst])]
      refine ih (fun t2 ht2 => hts t2 (List.mem_cons_of_mem _ ht2))
        (skInsert res t reason) ?_
      intro p hp
      rcases mem_skInsert res t reason p hp with h | h
      · subst h
        exact Or.inl ⟨hts t (List.mem_cons_self _ _), r, srch, hm, hc, hst⟩
      · exact hres p h

/-- The inner loop never removes a key. -/
theorem innerFold_key_stable (reason : String) (srch : String → Bool)
    (k0 : String) :
    ∀ ts : List String, ∀ res : List (String × String),
      (∃ w, (k0, w) ∈ res) →
    ∃ w, (k0, w) ∈ ts.foldl
      (fun res t => if srch t then skInsert res t reason else res) res := by
  intro ts
  induction ts with
  | nil => intro res h; exact h
  | cons t ts ih =>
    intro res h
    simp only [List.foldl_cons]
    cases hst : srch t with
    | false =>
      rw [if_neg (by simp [hst])]
      exact ih res h
    | true =>
      rw [if_pos (by simp [hst])]
      exact ih (skInsert res t reason) (skInsert_key_stable res t reason k0 h)

/-- The outer loop over the regex mapping only produces justified records. -/
theorem outerFold_justified (eng : RegexEngine) (load_list : List String)
    (rs : List (String × String)) :
    ∀ rest : List (String × String), (∀ q ∈ rest, q ∈ rs) →
    ∀ res : List (String × String),
      (∀ p ∈ res, skipJustified eng load_list rs p) →
    ∀ p ∈ rest.foldl (fun result rp =>
        match eng.compile rp.1 with
        | some srch =>
          load_list.foldl (fun res t =>
            if srch t then skInsert res t rp.2 else res) result
        | none => skInsert result rp.1 rp.2) res,
      skipJustified eng load_list rs p := by
  intro rest
  induction rest with
  | nil => intro _ res hres p hp; exact hres p hp
  | cons q qs ih =>
    intro hsub res hres
    obtain ⟨r0, s0⟩ := q
    simp only [List.foldl_cons]
    cases hc : eng.compile r0 with
    | some srch =>
      exact ih (fun q2 hq2 => hsub q2 (List.mem_cons_of_mem _ hq2)) _
        (innerFold_justified eng load_list rs r0 s0 srch
          (hsub (r0, s0) (List.mem_cons_self _ _)) hc load_list
          (fun t ht => ht) res hres)
    | none =>
      refine ih (fun q2 hq2 => hsub q2 (List.mem_cons_of_mem _ hq2))
        (skInsert res r0 s0) ?_
      intro p hp
      rcases mem_skInsert res r0 s0 p hp with h | h
      · subst h
        exact Or.inr ⟨hsub (r0, s0) (List.mem_cons_self _ _), hc⟩
      · exact hres p h

/-- The outer loop never removes a key. -/
theorem outerFold_key_stable (eng : RegexEngine) (load_list : List String)
    (k0 : String) :
    ∀ rest : List (String × String), ∀ res : List (String × String),
      (∃ w, (k0, w) ∈ res) →
    ∃ w, (k0, w) ∈ rest.foldl (fun result rp =>
        match eng.compile rp.1 with
        | some srch =>
          load_list.foldl (fun res t =>
            if srch t then skInsert res t rp.2 else res) result
        | none => skInsert result rp.1 rp.2) res := by
  intro rest
  induction rest with
  | nil => intro res h; exact h
  | cons q qs ih =>
    intro res h
    obtain ⟨r0, s0⟩ := q
    simp only [List.foldl_cons]
    cases hc : eng.compile r0 with
    | some srch =>
      exact ih _ (innerFold_key_stable s0 srch k0 load_list res h)
    | none =>
      exact ih _ (skInsert_key_stable res r0 s0 k0 h)

/-- Every non-compiling pattern of the processed list ends up as a key of the
result. -/
theorem outerFold_key_intro (eng : RegexEngine) (load_list : List String) :
    ∀ rest : List (String × String), ∀ r reason : String,
      (r, reason) ∈ rest → eng.compile r = none →
    ∀ res : List (String × String),
    ∃ w, (r, w) ∈ rest.foldl (fun result rp =>
        match eng.compile rp.1 with
        | some srch =>
          load_list.foldl (fun res t =>
            if srch t then skInsert res t rp.2 else res) result
        | none => skInsert result rp.1 rp.2) res := by
  intro rest
  induction rest with
  | nil => intro r reason h; cases h
  | cons q qs ih =>
    intro r reason hmem hc res
    obtain ⟨r0, s0⟩ := q
    rcases List.mem_cons.mp hmem with h | h
    · obtain ⟨h1, h2⟩ := Prod.mk.injEq r reason r0 s0 ▸ h
      subst h1
      simp only [List.foldl_cons, hc]
      exact outerFold_key_stable eng load_list r qs (skInsert res r s0)
        ⟨s0, skInsert_self_mem res r s0⟩
    · simp only [List.foldl_cons]
      cases hc0 : eng.compile r0 with
      | some srch => exact ih r reason h hc _
      | none => exact ih r reason h hc _

/-- C10: `_expand_skip_list` returns the empty mapping when `regexps` is
`None` or empty; every entry of the result is either a loaded test matched
(via `search`) by a compiling pattern of `regexps` and mapped to that
pattern's reason, or a non-compiling pattern mapped to its own reason; and
every non-compiling pattern of `regexps` is a key of the result, whether or
not it occurs in `load_list`. -/
theorem testr_c10_expand_skip_list (eng : RegexEngine)
    (load_list : List String) (rs : List (String × String)) :
    expand_skip_list eng load_list none = [] ∧
    expand_skip_list eng load_list (some []) = [] ∧
    (∀ p ∈ expand_skip_list eng load_list (some rs),
      skipJustified eng load_list rs p) ∧
    (∀ r reason, (r, reason) ∈ rs → eng.compile r = none →
      ∃ w, (r, w) ∈ expand_skip_list eng load_list (some rs)) := by
  refine ⟨rfl, rfl, ?_, ?_⟩
  · intro p hp
    simp only [expand_skip_list] at hp
    by_cases hrs : rs.isEmpty
    · rw [if_pos hrs] at hp
      cases hp
    · rw [if_neg hrs] at hp
      exact outerFold_justified eng load_list rs rs (fun q hq => hq) []
        (fun p hp2 => absurd hp2 (List.not_mem_nil p)) p hp
  · intro r reason hm hcn
    have hrs : rs.isEmpty = false := by
      cases rs with
      | nil => cases hm
      | cons q qs => rfl
    simp only [expand_skip_list, hrs, Bool.false_eq_true, if_false]
    exact outerFold_key_intro eng load_list rs r reason hm hcn []

/-- Witness for C10 at a concrete engine, load list and skip mapping: the
non-compiling pattern `re-bad` is a key of the result even though it is not
a loaded test. -/
theorem testr_c10_witness :
    ("re-bad", "r2") ∈ rs0 ∧ eng0.compile "re-bad" = none ∧
    (∃ w, ("re-bad", w) ∈ expand_skip_list eng0 load0 (some rs0)) :=
  ⟨by decide, rfl,
   (testr_c10_expand_skip_list eng0 load0 rs0).2.2.2 "re-bad" "r2"
     (by decide) rfl⟩

end RallyVerify
